import Mathlib

/-!
Verification of the metered-access core of the Site-Dan-Ai-Cakto repository:
the credit ledger helpers (`deductCredits`, `addCredits`, admin adjustment),
the provider client (`calculateGenerationCost`, the retry loop of `request`,
the SSE decoder of `chatStream`), and the generate/chat route orchestrators.

Conventions of the shallow embedding:
* JS numbers that hold credit amounts become `ℚ` (the spec describes balances
  as non-negative rationals with two-decimal display).
* The JS `Infinity` marker returned for admin accounts becomes `⊤ : WithTop ℚ`.
* The Prisma store becomes an explicit `Db` record threaded through every
  operation; `findUnique`/`findMany` become `List.find?`/`List.filter` over
  insertion-ordered lists (creation timestamps are monotone in insertion
  order, so `orderBy createdAt asc` is the list order).
* A store call that can throw is modelled by a `DbFail` injection point:
  the catch-all handlers in the source map any throw to their fixed
  fallback result.
* The Prisma schema itself is not part of the sources; the shape of each
  record is reconstructed from the fields the routes read and write.  In
  particular `CreditTransaction.balance` is read by the credits GET route and
  written only by the admin PATCH route, so it is `Option ℚ` here and the
  creates that omit it store `none`.
-/

namespace Cakto

/-- Roles stored on a user row (`role: 'ADMIN' | 'USER'` strings in source). -/
inductive Role where
  | USER
  | ADMIN
deriving DecidableEq, Repr

/-- Transaction categories (`type` strings in the source). -/
inductive TxnType where
  | USAGE
  | PURCHASE
  | BONUS
  | REFUND
  | ADJUSTMENT
deriving DecidableEq, Repr

/-- A user row of the store (fields used by the core). -/
structure User where
  id : String
  email : String
  role : Role
  credits : ℚ
deriving DecidableEq, Repr

/-- A credit-transaction row.  `balance` is the optional resulting-balance
snapshot: the admin adjustment route writes it, `deductCredits` and
`addCredits` omit it. -/
structure Txn where
  userId : String
  amount : ℚ
  type : TxnType
  balance : Option ℚ
  description : String
deriving DecidableEq, Repr

/-- A message attachment (shape from the chat route body). -/
structure Attachment where
  type : String
  name : String
  content : Option String
deriving DecidableEq, Repr

/-- Message roles stored on a message row. -/
inductive MsgRole where
  | USER
  | ASSISTANT
  | SYSTEM
deriving DecidableEq, Repr

/-- A message row. -/
structure Message where
  id : String
  conversationId : String
  role : MsgRole
  content : String
  attachments : List Attachment
deriving DecidableEq, Repr

/-- A conversation row (fields used by the chat route). -/
structure Conversation where
  id : String
  userId : String
  title : String
  messageCount : ℕ
deriving DecidableEq, Repr

/-- A generated file (provider client `GeneratedFile`, the fields the cost
function and the generate route use). -/
structure GeneratedFile where
  path : String
  content : String
deriving DecidableEq, Repr

/-- A project row created by the generate route. -/
structure Project where
  id : String
  userId : String
  prompt : String
  files : List (String × String)
  status : String
  creditsCost : ℚ
deriving DecidableEq, Repr

/-- The durable store: insertion-ordered lists of rows.  Transactions and
messages are append-only. -/
structure Db where
  users : List User
  txns : List Txn
  conversations : List Conversation
  messages : List Message
  projects : List Project
deriving DecidableEq, Repr

/-- The empty store. -/
def dbEmpty : Db := ⟨[], [], [], [], []⟩

/-- `email.toLowerCase()` (as a computable character map; the admin emails
needed here are ASCII). -/
def lowerString (s : String) : String := String.mk (s.data.map Char.toLower)

/-- `message.trim()`: strip whitespace from both ends. -/
def trimString (s : String) : String :=
  String.mk (((s.data.dropWhile Char.isWhitespace).reverse.dropWhile Char.isWhitespace).reverse)

/-- `message.slice(0, n)`: the first `n` characters. -/
def takeString (n : ℕ) (s : String) : String := String.mk (s.data.take n)

/-- Mirrors `checkIsAdmin` / the inline admin test of `deductCredits`:
`user.role === 'ADMIN' || ADMIN_EMAILS.includes(user.email.toLowerCase())`. -/
def isAdminUser (admins : List String) (u : User) : Bool :=
  u.role == Role.ADMIN || admins.contains (lowerString u.email)

/-- `prisma.user.findUnique({ where: { id } })` (id is a unique key). -/
def findUser (db : Db) (userId : String) : Option User :=
  db.users.find? (fun u => u.id == userId)

/-- `prisma.user.update` applying `f` to the credits of the row with this id. -/
def updateCredits (db : Db) (userId : String) (f : ℚ → ℚ) : Db :=
  { db with users := db.users.map (fun u => if u.id == userId then { u with credits := f u.credits } else u) }

/-- `prisma.creditTransaction.create` (append-only ledger). -/
def appendTxn (db : Db) (t : Txn) : Db :=
  { db with txns := db.txns ++ [t] }

/-- Injection point for a throwing store call inside `deductCredits` /
`addCredits`; `none` is the normal run. -/
inductive DbFail where
  | none
  | onFind
  | onUpdate
  | onCreateTxn
deriving DecidableEq, Repr

/-- Result of `deductCredits`: `{ success, remaining }`, where `remaining`
is `Infinity` (here `⊤`) for admins. -/
structure DeductResult where
  success : Bool
  remaining : WithTop ℚ
deriving DecidableEq, Repr

/-- `deductCredits(userId, amount, description)` from the auth helpers:
look the user up; a missing user or any thrown store call yields
`{ success: false, remaining: 0 }`; an admin short-circuits to
`{ success: true, remaining: Infinity }` with no store write; an
insufficient balance fails without mutation; otherwise the row is
decremented and one `USAGE` transaction with amount `-amount` (and no
balance snapshot) is appended.  The returned remaining balance is the
updated row's credits. -/
def deductCredits (fail : DbFail) (admins : List String) (db : Db)
    (userId : String) (amount : ℚ) (description : String) :
    DeductResult × Db :=
  if fail == DbFail.onFind then (⟨false, (0 : ℚ)⟩, db)
  else
    match findUser db userId with
    | Option.none => (⟨false, (0 : ℚ)⟩, db)
    | Option.some user =>
      if isAdminUser admins user then (⟨true, ⊤⟩, db)
      else if user.credits < amount then (⟨false, (user.credits : ℚ)⟩, db)
      else if fail == DbFail.onUpdate then (⟨false, (0 : ℚ)⟩, db)
      else
        let db1 := updateCredits db userId (fun c => c - amount)
        if fail == DbFail.onCreateTxn then (⟨false, (0 : ℚ)⟩, db1)
        else
          (⟨true, (user.credits - amount : ℚ)⟩,
           appendTxn db1 ⟨userId, -amount, TxnType.USAGE, Option.none, description⟩)

/-- Result of `addCredits`: `{ success, total }`. -/
structure AddResult where
  success : Bool
  total : ℚ
deriving DecidableEq, Repr

/-- `addCredits(userId, amount, description, type)`: increment the row's
credits (an update on a missing row throws, caught into
`{ success: false, total: 0 }`), then append a transaction with the raw
`amount` and no balance snapshot. -/
def addCredits (fail : DbFail) (db : Db) (userId : String) (amount : ℚ)
    (description : String) (type : TxnType) : AddResult × Db :=
  if fail == DbFail.onUpdate then (⟨false, 0⟩, db)
  else
    match findUser db userId with
    | Option.none => (⟨false, 0⟩, db)
    | Option.some user =>
      let db1 := updateCredits db userId (fun c => c + amount)
      if fail == DbFail.onCreateTxn then (⟨false, 0⟩, db1)
      else
        (⟨true, user.credits + amount⟩,
         appendTxn db1 ⟨userId, amount, type, Option.none, description⟩)

/-- Outcome of the admin credit adjustment (PATCH /api/credits core). -/
inductive AdjustOutcome where
  | notFound
  | adminTarget
  | ok (previousBalance newBalance : ℚ)
deriving DecidableEq, Repr

/-- The adjustment core of `PATCH /api/credits` (after the caller's admin
check): look the target up; a missing target is a 404; an admin target is
rejected ("Cannot adjust admin credits"); otherwise the new balance is
`max(0, previous + amount)`, the row is updated to it, and one
`ADJUSTMENT` transaction is appended recording the raw `amount` and the
new balance, with description `[ADMIN] <reason>`. -/
def adminAdjust (admins : List String) (db : Db) (userId : String)
    (amount : ℚ) (reason : String) : AdjustOutcome × Db :=
  match findUser db userId with
  | Option.none => (AdjustOutcome.notFound, db)
  | Option.some target =>
    if isAdminUser admins target then (AdjustOutcome.adminTarget, db)
    else
      let newBalance := max 0 (target.credits + amount)
      let db1 := updateCredits db userId (fun _ => newBalance)
      (AdjustOutcome.ok target.credits newBalance,
       appendTxn db1 ⟨userId, amount, TxnType.ADJUSTMENT, Option.some newBalance,
                      "[ADMIN] " ++ reason⟩)

/-- The `create` branch of the `getCurrentUser` upsert: a new user row with
100 starting credits and role `ADMIN` exactly when the email is on the
admin list.  No transaction is written for the starting credits. -/
def createUser (admins : List String) (db : Db) (id email : String) : Db :=
  { db with users := db.users ++
      [⟨id, email, if admins.contains (lowerString email) then Role.ADMIN else Role.USER, 100⟩] }

/-- Sum of the amounts of the transactions owned by an account. -/
def txnSum (db : Db) (userId : String) : ℚ :=
  ((db.txns.filter (fun t => t.userId == userId)).map Txn.amount).sum

/-!
Provider client: cost constants, generation cost tiers, retry loop.
-/

/-- `CREDIT_COSTS.chat.simple = 0.30`. -/
def chatSimpleCost : ℚ := 0.30

/-- `CREDIT_COSTS.chat.withDocument = 0.50`. -/
def chatWithDocumentCost : ℚ := 0.50

/-- `CREDIT_COSTS.siteGeneration.basic = 2.0`. -/
def siteGenerationBasic : ℚ := 2.0

/-- `CREDIT_COSTS.siteGeneration.standard = 5.0`. -/
def siteGenerationStandard : ℚ := 5.0

/-- `CREDIT_COSTS.siteGeneration.advanced = 10.0`. -/
def siteGenerationAdvanced : ℚ := 10.0

/-- `EmergentClient.calculateGenerationCost`: start from the basic price,
overwrite with the standard price when prompt length exceeds 500 or total
output content length exceeds 50000, then overwrite with the advanced
price when prompt length exceeds 1000, total content length exceeds
100000, or the file count exceeds 20. -/
def calculateGenerationCost (prompt : String) (files : List GeneratedFile) : ℚ :=
  let promptLength := prompt.length
  let totalContentLength := files.foldl (fun sum f => sum + f.content.length) 0
  let cost := siteGenerationBasic
  let cost := if promptLength > 500 || totalContentLength > 50000 then
                siteGenerationStandard else cost
  let cost := if promptLength > 1000 || totalContentLength > 100000 || files.length > 20 then
                siteGenerationAdvanced else cost
  cost

/-- Outcome of one `fetch` attempt inside `EmergentClient.request`: either a
parsed success value, or a thrown error carrying the HTTP status of the
`EmergentApiError` (`some s` for a non-ok response with status `s`,
`none` for a transport-level failure with no status). -/
inductive AttemptOutcome (T : Type) where
  | ok (v : T)
  | err (status : Option ℕ)
deriving DecidableEq, Repr

/-- The "don't retry" test of `request`:
`error.status >= 400 && error.status < 500 && error.status !== 429`
(only an `EmergentApiError` carries a status). -/
def nonRetryable : Option ℕ → Bool
  | Option.some s => decide (400 ≤ s) && decide (s < 500) && decide (s ≠ 429)
  | Option.none => false

/-- Observable trace of `request`: the returned value or the thrown error
(the status of the last observed error), the backoff sleeps performed in
order (milliseconds), and how many fetch attempts ran. -/
structure ReqTrace (T : Type) where
  result : Except (Option ℕ) T
  sleeps : List ℕ
  attempts : ℕ
deriving Repr

/-- The `for (attempt = 0; attempt <= maxRetries; attempt++)` loop of
`EmergentClient.request`, with `fuel` iterations left (the wrapper starts
it with `maxRetries + 1`).  A success returns at once; a non-retryable
error is rethrown at once; a retryable error sleeps
`retryDelay * 2 ^ attempt` when `attempt < maxRetries` and continues;
when the loop ends the last observed error is thrown. -/
def requestLoop {T : Type} (outcomes : ℕ → AttemptOutcome T)
    (maxRetries retryDelay : ℕ) : ℕ → ℕ → Option ℕ → ReqTrace T
  | _, 0, lastErr => ⟨Except.error lastErr, [], 0⟩
  | attempt, fuel + 1, _ =>
    match outcomes attempt with
    | AttemptOutcome.ok v => ⟨Except.ok v, [], 1⟩
    | AttemptOutcome.err e =>
      if nonRetryable e then ⟨Except.error e, [], 1⟩
      else
        let sleepsHere := if attempt < maxRetries then [retryDelay * 2 ^ attempt] else []
        let rest := requestLoop outcomes maxRetries retryDelay (attempt + 1) fuel e
        ⟨rest.result, sleepsHere ++ rest.sleeps, 1 + rest.attempts⟩

/-- `EmergentClient.request` as a trace over the per-attempt outcomes. -/
def runRequest {T : Type} (outcomes : ℕ → AttemptOutcome T)
    (maxRetries retryDelay : ℕ) : ReqTrace T :=
  requestLoop outcomes maxRetries retryDelay 0 (maxRetries + 1) Option.none

/-!
Stream decoding (`EmergentClient.chatStream`).  Chunks are sequences of
characters (the `TextDecoder` step from bytes to text is the runtime's);
the decoder keeps a partial-line buffer, splits the buffered input on
newlines, and handles each complete line: only lines starting with the
literal marker `data: ` matter, the payload `[DONE]` ends the stream, and
otherwise the payload goes through `JSON.parse` followed by the lookup
`choices?.[0]?.delta?.content` — modelled here as an opaque
`extract : List Char → Option (List Char)` where `none` covers both a
parse error (swallowed) and an absent content field (skipped), and a
yielded fragment must be truthy (non-empty). -/

/-- `buffer.split('\n')` followed by `buffer = lines.pop()`: the complete
lines and the trailing partial line. -/
def splitBuf : List Char → List (List Char) × List Char
  | [] => ([], [])
  | c :: cs =>
    let (ls, rest) := splitBuf cs
    if c = '\n' then ([] :: ls, rest)
    else
      match ls with
      | [] => ([], c :: rest)
      | l :: tl => ((c :: l) :: tl, rest)

/-- The literal `data: ` marker. -/
def dataMarker : List Char := ['d', 'a', 't', 'a', ':', ' ']

/-- `line.startsWith('data: ')`. -/
def startsWithData : List Char → Bool
  | 'd' :: 'a' :: 't' :: 'a' :: ':' :: ' ' :: _ => true
  | _ => false

/-- The `[DONE]` sentinel payload. -/
def doneSentinel : List Char := ['[', 'D', 'O', 'N', 'E', ']']

/-- Process a run of complete lines: returns the fragments yielded (in
order) and whether the `[DONE]` sentinel ended the stream (in which case
the remaining lines are never looked at, matching the generator's
`return`). -/
def processLines (extract : List Char → Option (List Char)) :
    List (List Char) → List (List Char) × Bool
  | [] => ([], false)
  | l :: ls =>
    if startsWithData l then
      let d := l.drop 6
      if d = doneSentinel then ([], true)
      else
        match extract d with
        | Option.some c =>
          if c = [] then processLines extract ls
          else
            let (rest, fin) := processLines extract ls
            (c :: rest, fin)
        | Option.none => processLines extract ls
    else processLines extract ls

/-- Decoder state across reads: whether the generator already returned,
and the buffered partial line. -/
structure DecState where
  finished : Bool
  buffer : List Char
deriving DecidableEq, Repr

/-- The fresh decoder state (`buffer = ''`). -/
def decInit : DecState := ⟨false, []⟩

/-- One iteration of the `while (true)` read loop of `chatStream` on a
delivered chunk: append to the buffer, split off the complete lines, keep
the trailing partial line, and process the complete lines. -/
def feed (extract : List Char → Option (List Char)) (st : DecState)
    (chunk : List Char) : DecState × List (List Char) :=
  if st.finished then (st, [])
  else
    let (lines, buf) := splitBuf (st.buffer ++ chunk)
    let (frags, fin) := processLines extract lines
    (⟨fin, buf⟩, frags)

/-- Feed a whole sequence of chunks, concatenating the yielded fragments. -/
def feedAll (extract : List Char → Option (List Char)) (st : DecState) :
    List (List Char) → DecState × List (List Char)
  | [] => (st, [])
  | c :: cs =>
    let (st1, out1) := feed extract st c
    let (st2, out2) := feedAll extract st1 cs
    (st2, out1 ++ out2)

/-!
Route orchestrators.  `getCurrentUser` resolves the session to an
`AppUser` whose `credits` field is `Infinity` for admins; the routes read
only `id`, `credits` and `isAdmin` from it.  The provider call and the
store-generated identifiers are parameters of the route functions.
-/

/-- The view of a user the routes receive from `getCurrentUser`:
`credits` is `Infinity` (`⊤`) when the account is an admin. -/
structure AppUser where
  id : String
  email : String
  credits : WithTop ℚ
  isAdmin : Bool
deriving DecidableEq, Repr

/-- The database-sync branch of `getCurrentUser` on an existing row. -/
def toAppUser (admins : List String) (u : User) : AppUser :=
  let adm := isAdminUser admins u
  ⟨u.id, u.email, if adm then ⊤ else (u.credits : WithTop ℚ), adm⟩

/-- The provider's `GenerationResult` (fields the generate route uses). -/
structure GenerationResult where
  success : Bool
  files : List GeneratedFile
  preview : Option String
  estimatedCost : ℚ
  error : Option String
deriving DecidableEq, Repr

/-- Responses of `POST /api/generate`. -/
inductive GenResponse where
  | unauthenticated
  | invalidRequest
  | generationFailed (msg : String)
  | insufficientCredits (required : ℚ) (available : WithTop ℚ)
  | success (projectId slug : String) (files : List GeneratedFile)
      (preview : Option String) (creditsCost : ℚ)
deriving DecidableEq, Repr

/-- `POST /api/generate`: authenticate, validate, call the provider; a
failed generation returns with no store effect; a non-admin whose
credits are below the estimated cost gets the 402 insufficient-credits
response (with required and available amounts) before anything is
persisted; otherwise the project is created with status `READY` and the
cost, the cost is deducted, and the file set is returned. -/
def generatePOST (admins : List String) (db : Db) (user? : Option AppUser)
    (valid : Bool) (prompt : String) (result : GenerationResult)
    (projectName pid slug : String) : GenResponse × Db :=
  match user? with
  | Option.none => (GenResponse.unauthenticated, db)
  | Option.some user =>
    if !valid then (GenResponse.invalidRequest, db)
    else if !result.success then
      (GenResponse.generationFailed (result.error.getD "Generation failed"), db)
    else if ¬user.isAdmin ∧ user.credits < (result.estimatedCost : WithTop ℚ) then
      (GenResponse.insufficientCredits result.estimatedCost user.credits, db)
    else
      let filesObject := result.files.map (fun f => (f.path, f.content))
      let db1 := { db with projects := db.projects ++
        [⟨pid, user.id, prompt, filesObject, "READY", result.estimatedCost⟩] }
      let (_, db2) := deductCredits DbFail.none admins db1 user.id result.estimatedCost
        ("Site generation: " ++ projectName ++ " (" ++ pid ++ ")")
      (GenResponse.success pid slug result.files result.preview result.estimatedCost, db2)

/-- Body of `POST /api/chat`. -/
structure ChatBody where
  conversationId : Option String
  message : String
  attachments : List Attachment
deriving DecidableEq, Repr

/-- One event written to the chat SSE channel: a content fragment
(`data: {"content": chunk}`), the in-band error marker
(`data: {"error": "Stream error"}`), or the terminal `data: [DONE]`.
The channel is closed when the event list ends. -/
inductive SSEvent where
  | content (s : String)
  | errorMarker
  | done
deriving DecidableEq, Repr

/-- Responses of `POST /api/chat`: JSON errors, or the SSE stream (with
the conversation id from the `X-Conversation-Id` header). -/
inductive ChatResponse where
  | unauthenticated
  | emptyMessage
  | insufficientCredits (required : ℚ) (available : WithTop ℚ)
  | stream (conversationId : String) (events : List SSEvent)
deriving DecidableEq, Repr

/-- A message of the model context sent to the provider. -/
structure CtxMsg where
  role : MsgRole
  content : String
deriving DecidableEq, Repr

/-- The synthesized leading system instruction of the chat route. -/
def systemPromptText : String :=
  "Você é um assistente de IA avançado da PlataformaIA. Você ajuda usuários a criar aplicações web, escrever código, e responder perguntas técnicas. Seja prestativo, preciso e forneça exemplos de código quando apropriado. Responda em português brasileiro."

/-- The context building of the chat route:
`findMany({ where: { conversationId }, orderBy: { createdAt: 'asc' }, take: 10 })`
— the first ten messages of the conversation in chronological order —
mapped to role/content pairs, with the system instruction unshifted in
front. -/
def buildContext (db : Db) (convId : String) : List CtxMsg :=
  let previousMessages := (db.messages.filter (fun m => m.conversationId == convId)).take 10
  let msgs := previousMessages.map (fun m => CtxMsg.mk m.role m.content)
  CtxMsg.mk MsgRole.SYSTEM systemPromptText :: msgs

/-- `conversation.update({ data: { messageCount: { increment: 2 }, updatedAt } })`:
bump the counter of the row with this id by two. -/
def bumpConversation (db : Db) (convId : String) : Db :=
  { db with conversations :=
      db.conversations.map fun c =>
        if c.id == convId then { c with messageCount := c.messageCount + 2 } else c }

/-- The get-or-create conversation block of the chat route:
`findUnique({ where: { id: conversationId, userId } })` when an id is
supplied, and otherwise (or on a lookup miss) a freshly created
conversation titled with the first 100 characters of the message. -/
def resolveConversation (db : Db) (userId : String) (body : ChatBody)
    (newConvId : String) : Conversation × Db :=
  let conv? := match body.conversationId with
    | Option.some cid =>
      db.conversations.find? (fun c => c.id == cid && c.userId == userId)
    | Option.none => Option.none
  match conv? with
  | Option.some c => (c, db)
  | Option.none =>
    let c : Conversation := ⟨newConvId, userId, takeString 100 body.message, 0⟩
    (c, { db with conversations := db.conversations ++ [c] })

/-- `POST /api/chat`: authenticate; reject an empty (whitespace-only)
message; price by attachment presence; a non-admin below the price gets
the 402 insufficient-credits response before any store write or provider
call; otherwise resolve or create the conversation, persist the user
message, deduct the cost (result unchecked), build the context, and open
the provider stream `provider`, which returns the fragments it produced
and whether it then raised.  Fragments are relayed as SSE content
events; on exhaustion the assistant message is persisted, the
conversation counter bumped by 2, and `[DONE]` emitted; on a stream
error the error marker is emitted and the channel closed, with no
further store writes. -/
def chatPOST (admins : List String) (db : Db) (user? : Option AppUser)
    (body : ChatBody) (newConvId userMsgId asstMsgId : String)
    (provider : List CtxMsg → List String × Bool) : ChatResponse × Db :=
  match user? with
  | Option.none => (ChatResponse.unauthenticated, db)
  | Option.some user =>
    if trimString body.message = "" then (ChatResponse.emptyMessage, db)
    else
      let creditCost := if body.attachments.length > 0 then chatWithDocumentCost
                        else chatSimpleCost
      if ¬user.isAdmin ∧ user.credits < (creditCost : WithTop ℚ) then
        (ChatResponse.insufficientCredits creditCost user.credits, db)
      else
        let (conv, db1) := resolveConversation db user.id body newConvId
        let db2 := { db1 with messages := db1.messages ++
          [⟨userMsgId, conv.id, MsgRole.USER, body.message, body.attachments⟩] }
        let (_, db3) := deductCredits DbFail.none admins db2 user.id creditCost
          ("Chat message in conversation " ++ conv.id)
        let (providerFrags, providerErr) := provider (buildContext db3 conv.id)
        let events := providerFrags.map SSEvent.content
        if providerErr then
          (ChatResponse.stream conv.id (events ++ [SSEvent.errorMarker]), db3)
        else
          let fullResponse := String.join providerFrags
          let db4 := { db3 with messages := db3.messages ++
            [⟨asstMsgId, conv.id, MsgRole.ASSISTANT, fullResponse, []⟩] }
          let db5 := bumpConversation db4 conv.id
          (ChatResponse.stream conv.id (events ++ [SSEvent.done]), db5)

/-- The exponential backoff schedule: the sleeps
`retryDelay * 2 ^ attempt` for `n` consecutive failed attempts starting
at index `attempt`. -/
def geomSleeps (retryDelay : ℕ) : ℕ → ℕ → List ℕ
  | _, 0 => []
  | attempt, n + 1 => retryDelay * 2 ^ attempt :: geomSleeps retryDelay (attempt + 1) n

/-!
Ledger operation sequences (for the running-sum invariant).
-/

/-- One ledger-touching operation of the core. -/
inductive LedgerOp where
  | create (id email : String)
  | deduct (userId : String) (amount : ℚ) (description : String)
  | credit (userId : String) (amount : ℚ) (description : String) (type : TxnType)
  | adjust (userId : String) (amount : ℚ) (reason : String)
deriving DecidableEq, Repr

/-- Apply one operation to the store (the result objects are discarded). -/
def applyOp (admins : List String) (db : Db) : LedgerOp → Db
  | LedgerOp.create id email => createUser admins db id email
  | LedgerOp.deduct uid a d => (deductCredits DbFail.none admins db uid a d).2
  | LedgerOp.credit uid a d t => (addCredits DbFail.none db uid a d t).2
  | LedgerOp.adjust uid a r => (adminAdjust admins db uid a r).2

/-- Apply a sequence of operations in order. -/
def applyOps (admins : List String) (db : Db) : List LedgerOp → Db
  | [] => db
  | op :: ops => applyOps admins (applyOp admins db op) ops

/-- The store invariant the ledger maintains: user ids are unique keys,
every transaction belongs to an existing user, and every account's
transaction-amount sum equals its balance minus the 100 starting credits
granted (without a transaction) at account creation. -/
def LedgerInv (db : Db) : Prop :=
  (db.users.map User.id).Nodup ∧
  (∀ t ∈ db.txns, ∃ u ∈ db.users, t.userId = u.id) ∧
  (∀ u ∈ db.users, txnSum db u.id = u.credits - 100)

/-- Side condition of one operation: a created id is fresh (ids are
store-generated unique keys), and an admin adjustment does not hit the
`max(0, previous + delta)` floor. -/
def okStep (admins : List String) (db : Db) : LedgerOp → Prop
  | LedgerOp.create id _ => ∀ u ∈ db.users, u.id ≠ id
  | LedgerOp.deduct _ _ _ => True
  | LedgerOp.credit _ _ _ _ => True
  | LedgerOp.adjust uid a _ =>
      ∀ u ∈ db.users, u.id = uid → isAdminUser admins u = false → 0 ≤ u.credits + a

/-- `okStep` is checkable on concrete stores. -/
instance okStepDecidable (admins : List String) (db : Db) (op : LedgerOp) :
    Decidable (okStep admins db op) :=
  match op with
  | LedgerOp.create _ _ => List.decidableBAll _ db.users
  | LedgerOp.deduct _ _ _ => inferInstanceAs (Decidable True)
  | LedgerOp.credit _ _ _ _ => inferInstanceAs (Decidable True)
  | LedgerOp.adjust _ _ _ => List.decidableBAll _ db.users

/-- Side conditions hold along the whole run. -/
def okRun (admins : List String) (db : Db) : List LedgerOp → Prop
  | [] => True
  | op :: ops => okStep admins db op ∧ okRun admins (applyOp admins db op) ops

/-!
Helper lemmas.
-/

/-- Updating the credits of a row rewrites exactly the rows with that id. -/
theorem find?_updateRow (l : List User) (userId : String) (f : ℚ → ℚ) :
    (l.map (fun u => if u.id == userId then { u with credits := f u.credits } else u)).find?
        (fun u => u.id == userId) =
      (l.find? (fun u => u.id == userId)).map (fun u => { u with credits := f u.credits }) := by
  induction l with
  | nil => rfl
  | cons a l ih =>
    by_cases h : a.id == userId
    · simp [List.find?, h]
    · simp only [List.map_cons, List.find?]
      rw [if_neg h]
      simp only [h, Bool.false_eq_true, reduceIte] at *
      exact ih

/-- `findUser` after `updateCredits` at the same id. -/
theorem findUser_updateCredits (db : Db) (userId : String) (f : ℚ → ℚ) :
    findUser (updateCredits db userId f) userId =
      (findUser db userId).map (fun u => { u with credits := f u.credits }) :=
  find?_updateRow db.users userId f

/-!
Claim theorems.
-/

/-- Claim C3: for every admin account (by role or by admin-listed email) and
every debit amount, `deductCredits` succeeds, the store is not mutated (no
balance change, no transaction), and the reported remaining balance is the
unlimited marker `⊤` (JS `Infinity`), regardless of the stored balance. -/
theorem C3_admin_deduct_unlimited (admins : List String) (db : Db)
    (userId : String) (amount : ℚ) (descr : String) (u : User)
    (hfind : findUser db userId = Option.some u)
    (hadm : isAdminUser admins u = true) :
    deductCredits DbFail.none admins db userId amount descr = (⟨true, ⊤⟩, db) := by
  simp [deductCredits, hfind, hadm]

/-- Witness for C3: a user whose stored role is `USER` but whose email is on
the admin list, stored balance 3, debited 1000: success, remaining `⊤`,
store untouched. -/
theorem C3_admin_deduct_unlimited_witness :
    deductCredits DbFail.none ["adm@x.y"]
      ⟨[⟨"u1", "Adm@X.y", Role.USER, 3⟩], [], [], [], []⟩ "u1" 1000 "big debit" =
    (⟨true, ⊤⟩, ⟨[⟨"u1", "Adm@X.y", Role.USER, 3⟩], [], [], [], []⟩) :=
  C3_admin_deduct_unlimited ["adm@x.y"]
    ⟨[⟨"u1", "Adm@X.y", Role.USER, 3⟩], [], [], [], []⟩ "u1" 1000 "big debit"
    ⟨"u1", "Adm@X.y", Role.USER, 3⟩ (by decide) (by decide)

/-- Claim C1 (amended): for a non-admin account with balance B, a debit of
A ≤ B succeeds with new balance B − A and appends exactly one
`USAGE`-category transaction with amount −A — whose balance-snapshot field
is left unset (the create in `deductCredits` does not write it) — while a
debit of A > B fails, leaves the store unchanged, and reports the
unchanged balance B. -/
theorem C1_tryDebit_contract (admins : List String) (db : Db)
    (userId descr : String) (amount : ℚ) (u : User)
    (hfind : findUser db userId = Option.some u)
    (hadm : isAdminUser admins u = false) :
    (amount ≤ u.credits →
       deductCredits DbFail.none admins db userId amount descr =
         (⟨true, (u.credits - amount : ℚ)⟩,
          appendTxn (updateCredits db userId (fun c => c - amount))
            ⟨userId, -amount, TxnType.USAGE, Option.none, descr⟩) ∧
       findUser (deductCredits DbFail.none admins db userId amount descr).2 userId =
         Option.some { u with credits := u.credits - amount } ∧
       (deductCredits DbFail.none admins db userId amount descr).2.txns =
         db.txns ++ [⟨userId, -amount, TxnType.USAGE, Option.none, descr⟩]) ∧
    (u.credits < amount →
       deductCredits DbFail.none admins db userId amount descr =
         (⟨false, (u.credits : ℚ)⟩, db)) := by
  constructor
  · intro hle
    have hd : deductCredits DbFail.none admins db userId amount descr =
        (⟨true, (u.credits - amount : ℚ)⟩,
         appendTxn (updateCredits db userId (fun c => c - amount))
           ⟨userId, -amount, TxnType.USAGE, Option.none, descr⟩) := by
      simp [deductCredits, hfind, hadm, not_lt.mpr hle]
    refine ⟨hd, ?_, ?_⟩
    · rw [hd]
      show findUser (updateCredits db userId (fun c => c - amount)) userId = _
      rw [findUser_updateCredits, hfind]
      rfl
    · rw [hd]; rfl
  · intro hlt
    simp [deductCredits, hfind, hadm, hlt]

/-- Witness for C1: balance 10, debit 3: success with remaining 7 and one
appended USAGE transaction of amount −3. -/
theorem C1_tryDebit_contract_witness :
    deductCredits DbFail.none [] ⟨[⟨"u1", "a@b.c", Role.USER, 10⟩], [], [], [], []⟩
        "u1" 3 "usage" =
      (⟨true, (7 : ℚ)⟩,
       appendTxn (updateCredits ⟨[⟨"u1", "a@b.c", Role.USER, 10⟩], [], [], [], []⟩
           "u1" (fun c => c - 3))
         ⟨"u1", -3, TxnType.USAGE, Option.none, "usage"⟩) := by
  have h := (C1_tryDebit_contract [] ⟨[⟨"u1", "a@b.c", Role.USER, 10⟩], [], [], [], []⟩
      "u1" "usage" 3 ⟨"u1", "a@b.c", Role.USER, 10⟩ (by decide) (by decide)).1
      (by norm_num)
  have h10 : ((10 : ℚ) - 3) = 7 := by norm_num
  simpa [h10] using h.1

/-- Counterexample for C1 as stated: the claim requires the appended usage
transaction to record the resulting balance B − A; on balance 10 and
debit 3 the appended transaction has amount −3 but its balance field is
`none`, not `some 7`. -/
theorem C1_counterexample :
    (deductCredits DbFail.none [] ⟨[⟨"u1", "a@b.c", Role.USER, 10⟩], [], [], [], []⟩
        "u1" 3 "usage").2.txns =
      [⟨"u1", -3, TxnType.USAGE, Option.none, "usage"⟩] ∧
    ¬ ∃ t ∈ (deductCredits DbFail.none [] ⟨[⟨"u1", "a@b.c", Role.USER, 10⟩], [], [], [], []⟩
        "u1" 3 "usage").2.txns,
        t.amount = -3 ∧ t.balance = Option.some 7 := by
  decide

/-- Claim C10: a `deductCredits` call on a missing account, or one in which
a store call throws (the lookup, the balance update, or the transaction
create), returns `{ success: false, remaining: 0 }` — 0 rather than the
account's actual balance — and appends no transaction. -/
theorem C10_deduct_failure_paths (admins : List String) (db : Db)
    (userId descr : String) (amount : ℚ) :
    (findUser db userId = Option.none →
       ∀ fail, deductCredits fail admins db userId amount descr =
         (⟨false, (0 : ℚ)⟩, db)) ∧
    (deductCredits DbFail.onFind admins db userId amount descr =
       (⟨false, (0 : ℚ)⟩, db)) ∧
    (∀ u, findUser db userId = Option.some u → isAdminUser admins u = false →
       amount ≤ u.credits →
       deductCredits DbFail.onUpdate admins db userId amount descr =
         (⟨false, (0 : ℚ)⟩, db) ∧
       (deductCredits DbFail.onCreateTxn admins db userId amount descr).1 =
         ⟨false, (0 : ℚ)⟩ ∧
       (deductCredits DbFail.onCreateTxn admins db userId amount descr).2.txns =
         db.txns) := by
  refine ⟨?_, by simp [deductCredits], ?_⟩
  · intro hnone fail
    cases fail <;> simp [deductCredits, hnone]
  · intro u hfind hadm hle
    refine ⟨by simp [deductCredits, hfind, hadm, not_lt.mpr hle], ?_, ?_⟩
    · simp [deductCredits, hfind, hadm, not_lt.mpr hle]
    · simp [deductCredits, hfind, hadm, not_lt.mpr hle, updateCredits]

/-- Witness for C10: a store with one non-admin user `u1` (balance 10):
a deduct of an unknown id fails with remaining 0 and no mutation, and a
deduct of 3 from `u1` under each injected store failure fails with
remaining 0 and appends no transaction. -/
theorem C10_deduct_failure_paths_witness :
    deductCredits DbFail.none [] ⟨[⟨"u1", "a@b.c", Role.USER, 10⟩], [], [], [], []⟩
        "ghost" 3 "d" =
      (⟨false, (0 : ℚ)⟩, ⟨[⟨"u1", "a@b.c", Role.USER, 10⟩], [], [], [], []⟩) ∧
    deductCredits DbFail.onFind [] ⟨[⟨"u1", "a@b.c", Role.USER, 10⟩], [], [], [], []⟩
        "u1" 3 "d" =
      (⟨false, (0 : ℚ)⟩, ⟨[⟨"u1", "a@b.c", Role.USER, 10⟩], [], [], [], []⟩) ∧
    (deductCredits DbFail.onCreateTxn [] ⟨[⟨"u1", "a@b.c", Role.USER, 10⟩], [], [], [], []⟩
        "u1" 3 "d").2.txns = [] := by
  refine ⟨?_, ?_, ?_⟩
  · exact (C10_deduct_failure_paths [] ⟨[⟨"u1", "a@b.c", Role.USER, 10⟩], [], [], [], []⟩
      "ghost" "d" 3).1 (by decide) DbFail.none
  · exact (C10_deduct_failure_paths [] ⟨[⟨"u1", "a@b.c", Role.USER, 10⟩], [], [], [], []⟩
      "u1" "d" 3).2.1
  · exact ((C10_deduct_failure_paths [] ⟨[⟨"u1", "a@b.c", Role.USER, 10⟩], [], [], [], []⟩
      "u1" "d" 3).2.2 ⟨"u1", "a@b.c", Role.USER, 10⟩ (by decide) (by decide)
      (by norm_num)).2.2

set_option maxRecDepth 20000

/-- Claim C4: the generation cost is the three-tier rule — the top tier
price (10) when prompt length > 1000, total output size > 100000, or
file count > 20; otherwise the middle tier price (5) when prompt
length > 500 or total output size > 50000; otherwise the base price (2);
the higher tier overrides the lower.  In particular: prompt length 100
with 1000 bytes of output prices at the base tier, prompt length 600 at
the middle tier, and prompt length 1200 or file count 25 at the top tier
even when the other dimensions stay low. -/
theorem C4_generation_cost_tiers :
    (∀ (prompt : String) (files : List GeneratedFile),
       calculateGenerationCost prompt files =
         if prompt.length > 1000 ∨
            files.foldl (fun sum f => sum + f.content.length) 0 > 100000 ∨
            files.length > 20 then siteGenerationAdvanced
         else if prompt.length > 500 ∨
            files.foldl (fun sum f => sum + f.content.length) 0 > 50000 then
           siteGenerationStandard
         else siteGenerationBasic) ∧
    calculateGenerationCost (String.mk (List.replicate 100 'a'))
      [⟨"index.html", String.mk (List.replicate 1000 'b')⟩] = 2 ∧
    calculateGenerationCost (String.mk (List.replicate 600 'a')) [] = 5 ∧
    calculateGenerationCost (String.mk (List.replicate 1200 'a')) [] = 10 ∧
    calculateGenerationCost "small prompt" (List.replicate 25 ⟨"f.txt", "x"⟩) = 10 := by
  have hmain : ∀ (prompt : String) (files : List GeneratedFile),
      calculateGenerationCost prompt files =
        if prompt.length > 1000 ∨
           files.foldl (fun sum f => sum + f.content.length) 0 > 100000 ∨
           files.length > 20 then siteGenerationAdvanced
        else if prompt.length > 500 ∨
           files.foldl (fun sum f => sum + f.content.length) 0 > 50000 then
          siteGenerationStandard
        else siteGenerationBasic := by
    intro prompt files
    simp only [calculateGenerationCost, gt_iff_lt, Bool.or_eq_true, decide_eq_true_eq]
    by_cases h1 : 1000 < prompt.length ∨
        100000 < files.foldl (fun sum f => sum + f.content.length) 0 ∨ 20 < files.length
    · rw [if_pos h1]
      rcases h1 with h | h | h <;> simp [h]
    · rw [if_neg h1]
      push_neg at h1
      by_cases h2 : 500 < prompt.length ∨
          50000 < files.foldl (fun sum f => sum + f.content.length) 0
      · rw [if_pos h2]
        rcases h2 with h | h <;>
          simp [h, not_lt.mpr h1.1, not_lt.mpr h1.2.1, not_lt.mpr h1.2.2]
      · rw [if_neg h2]
        push_neg at h2
        simp [not_lt.mpr h1.1, not_lt.mpr h1.2.1, not_lt.mpr h1.2.2,
              not_lt.mpr h2.1, not_lt.mpr h2.2]
  refine ⟨hmain, ?_, ?_, ?_, ?_⟩
  · rw [hmain, if_neg (by decide), if_neg (by decide)]
    norm_num [siteGenerationBasic]
  · rw [hmain, if_neg (by decide), if_pos (by decide)]
    norm_num [siteGenerationStandard]
  · rw [hmain, if_pos (by decide)]
    norm_num [siteGenerationAdvanced]
  · rw [hmain, if_pos (by decide)]
    norm_num [siteGenerationAdvanced]

/-- Unfolding the retry loop with no fuel left. -/
theorem requestLoop_zero {T : Type} (o : ℕ → AttemptOutcome T)
    (m d attempt : ℕ) (le : Option ℕ) :
    requestLoop o m d attempt 0 le = ⟨Except.error le, [], 0⟩ := rfl

/-- One-level unfolding of the retry loop. -/
theorem requestLoop_succ {T : Type} (o : ℕ → AttemptOutcome T)
    (m d attempt fuel : ℕ) (le : Option ℕ) :
    requestLoop o m d attempt (fuel + 1) le =
      match o attempt with
      | AttemptOutcome.ok v => ⟨Except.ok v, [], 1⟩
      | AttemptOutcome.err e =>
        if nonRetryable e then ⟨Except.error e, [], 1⟩
        else
          let rest := requestLoop o m d (attempt + 1) fuel e
          ⟨rest.result,
           (if attempt < m then [d * 2 ^ attempt] else []) ++ rest.sleeps,
           1 + rest.attempts⟩ := rfl

/-- The retry loop never performs more attempts than it has fuel. -/
theorem requestLoop_attempts_le {T : Type} (o : ℕ → AttemptOutcome T)
    (m d : ℕ) :
    ∀ fuel attempt le, (requestLoop o m d attempt fuel le).attempts ≤ fuel := by
  intro fuel
  induction fuel with
  | zero => intro attempt le; simp [requestLoop_zero]
  | succ n ih =>
    intro attempt le
    rw [requestLoop_succ]
    cases h : o attempt with
    | ok v => simp
    | err e =>
      by_cases hn : nonRetryable e
      · simp [hn]
      · simp only [hn, Bool.false_eq_true, reduceIte]
        have := ih (attempt + 1) e
        omega

/-- Run of the retry loop that fails retryably on every attempt before `k`
and succeeds at attempt `k`: it returns the success, slept
`retryDelay * 2 ^ i` after each failed attempt `i`, and made no attempt
after the success. -/
theorem requestLoop_success {T : Type} (o : ℕ → AttemptOutcome T)
    (m d k : ℕ) (v : T) (es : ℕ → Option ℕ)
    (hok : o k = AttemptOutcome.ok v)
    (herr : ∀ i, i < k → o i = AttemptOutcome.err (es i))
    (hretry : ∀ i, i < k → nonRetryable (es i) = false)
    (hkm : k ≤ m) :
    ∀ fuel attempt le, attempt + fuel = m + 1 → attempt ≤ k →
      requestLoop o m d attempt fuel le =
        ⟨Except.ok v, geomSleeps d attempt (k - attempt), k - attempt + 1⟩ := by
  intro fuel
  induction fuel with
  | zero => intro attempt le h1 h2; omega
  | succ n ih =>
    intro attempt le h1 h2
    rcases Nat.lt_or_ge attempt k with hlt | hge
    · have hsl : attempt < m := lt_of_lt_of_le hlt hkm
      rw [requestLoop_succ, herr attempt hlt]
      simp only [hretry attempt hlt, Bool.false_eq_true, reduceIte, if_pos hsl]
      rw [ih (attempt + 1) (es attempt) (by omega) (by omega)]
      have hk : k - attempt = (k - (attempt + 1)) + 1 := by omega
      rw [hk]
      simp only [geomSleeps, List.singleton_append, ReqTrace.mk.injEq]
      exact ⟨trivial, trivial, by omega⟩
    · have heq : attempt = k := le_antisymm h2 hge
      subst heq
      rw [requestLoop_succ, hok]
      simp [Nat.sub_self, geomSleeps]

/-- Run of the retry loop that fails retryably on every allowed attempt:
every attempt is made, each failed attempt `i < maxRetries` is followed by
a `retryDelay * 2 ^ i` sleep, and the last observed error is thrown. -/
theorem requestLoop_exhaust {T : Type} (o : ℕ → AttemptOutcome T)
    (m d : ℕ) (es : ℕ → Option ℕ)
    (herr : ∀ i, i ≤ m → o i = AttemptOutcome.err (es i))
    (hretry : ∀ i, i ≤ m → nonRetryable (es i) = false) :
    ∀ fuel attempt le, 1 ≤ fuel → attempt + fuel = m + 1 →
      requestLoop o m d attempt fuel le =
        ⟨Except.error (es m), geomSleeps d attempt (m - attempt), fuel⟩ := by
  intro fuel
  induction fuel with
  | zero => intro attempt le h0 h1; omega
  | succ n ih =>
    intro attempt le h0 h1
    by_cases hn : n = 0
    · subst hn
      have ha : attempt = m := by omega
      rw [requestLoop_succ, herr attempt (by omega)]
      simp [hretry attempt (by omega), requestLoop_zero, ha, geomSleeps]
    · have hlt : attempt < m := by omega
      rw [requestLoop_succ, herr attempt (by omega)]
      simp only [hretry attempt (by omega), Bool.false_eq_true, reduceIte, if_pos hlt]
      rw [ih (attempt + 1) (es attempt) (by omega) (by omega)]
      have hk : m - attempt = (m - (attempt + 1)) + 1 := by omega
      rw [hk]
      simp only [geomSleeps, List.singleton_append, ReqTrace.mk.injEq]
      exact ⟨trivial, trivial, by omega⟩

/-- Claim C5: the provider client's retry algorithm — at most
`maxRetries` additional attempts after the first; a non-retryable error
(4xx other than 429) on the first attempt aborts with zero further
attempts and zero sleep; a run with two retryable 503s then a 200
succeeds having slept `baseDelay` then `2 × baseDelay` and performing no
attempt after the success; when every attempt fails retryably, all
`maxRetries + 1` attempts run, each failed non-final attempt `i` is
followed by a `baseDelay * 2 ^ i` sleep, and the last observed error is
returned; the default schedule (base 1000ms, 3 retries) is
1s, 2s, 4s. -/
theorem C5_retry_algorithm :
    (∀ (o : ℕ → AttemptOutcome ℕ) (m d : ℕ),
       (runRequest o m d).attempts ≤ m + 1) ∧
    (∀ (o : ℕ → AttemptOutcome ℕ) (m d : ℕ) (e : Option ℕ),
       o 0 = AttemptOutcome.err e → nonRetryable e = true →
       runRequest o m d = ⟨Except.error e, [], 1⟩) ∧
    (∀ (o : ℕ → AttemptOutcome ℕ) (d : ℕ) (v : ℕ),
       o 0 = AttemptOutcome.err (Option.some 503) →
       o 1 = AttemptOutcome.err (Option.some 503) →
       o 2 = AttemptOutcome.ok v →
       runRequest o 3 d = ⟨Except.ok v, [d, d * 2], 3⟩) ∧
    (∀ (o : ℕ → AttemptOutcome ℕ) (m d : ℕ) (es : ℕ → Option ℕ),
       (∀ i, i ≤ m → o i = AttemptOutcome.err (es i)) →
       (∀ i, i ≤ m → nonRetryable (es i) = false) →
       runRequest o m d = ⟨Except.error (es m), geomSleeps d 0 m, m + 1⟩) ∧
    geomSleeps 1000 0 3 = [1000, 2000, 4000] := by
  refine ⟨?_, ?_, ?_, ?_, by decide⟩
  · intro o m d
    exact requestLoop_attempts_le o m d (m + 1) 0 Option.none
  · intro o m d e h0 hnr
    have hr : runRequest o m d = requestLoop o m d 0 (m + 1) Option.none := rfl
    rw [hr, requestLoop_succ, h0]
    simp [hnr]
  · intro o d v h0 h1 h2
    have hes : ∀ i, i < 2 →
        o i = AttemptOutcome.err ((fun _ => Option.some 503) i) := by
      intro i hi
      interval_cases i <;> assumption
    have h := requestLoop_success o 3 d 2 v (fun _ => Option.some 503) h2 hes
      (by intro i hi; show nonRetryable (Option.some 503) = false; decide)
      (by omega) 4 0 Option.none (by omega) (by omega)
    have hr : runRequest o 3 d = requestLoop o 3 d 0 4 Option.none := rfl
    rw [hr, h]
    simp [geomSleeps, pow_succ]
  · intro o m d es herr hretry
    have h := requestLoop_exhaust o m d es herr hretry (m + 1) 0 Option.none
      (by omega) (by omega)
    have hr : runRequest o m d = requestLoop o m d 0 (m + 1) Option.none := rfl
    rw [hr, h]
    simp

/-- Witness for C5: a client whose first two attempts return 503 and whose
third returns a value succeeds after sleeps of 1000ms and 2000ms with
exactly three attempts; a client returning 404 on the first attempt
returns it immediately with zero sleeps and one attempt. -/
theorem C5_retry_algorithm_witness :
    runRequest (fun i => if i < 2 then AttemptOutcome.err (Option.some 503)
                         else AttemptOutcome.ok 42) 3 1000 =
      ⟨Except.ok 42, [1000, 2000], 3⟩ ∧
    runRequest (fun _ => (AttemptOutcome.err (Option.some 404) : AttemptOutcome ℕ)) 3 1000 =
      ⟨Except.error (Option.some 404), [], 1⟩ := by
  constructor
  · have h := C5_retry_algorithm.2.2.1
      (fun i => if i < 2 then AttemptOutcome.err (Option.some 503) else AttemptOutcome.ok 42)
      1000 42 (by decide) (by decide) (by decide)
    simpa using h
  · exact C5_retry_algorithm.2.1
      (fun _ => (AttemptOutcome.err (Option.some 404) : AttemptOutcome ℕ))
      3 1000 (Option.some 404) rfl (by decide)

/-- Splitting a concatenation: the complete lines of `xs ++ ys` are the
complete lines of `xs` followed by the complete lines of the leftover
buffer of `xs` prepended to `ys`, and the leftover buffers agree. -/
theorem splitBuf_append (xs ys : List Char) :
    splitBuf (xs ++ ys) =
      ((splitBuf xs).1 ++ (splitBuf ((splitBuf xs).2 ++ ys)).1,
       (splitBuf ((splitBuf xs).2 ++ ys)).2) := by
  induction xs with
  | nil => simp [splitBuf]
  | cons c cs ih =>
    by_cases hc : c = '\n'
    · subst hc
      simp [splitBuf, ih]
    · simp only [List.cons_append, splitBuf, if_neg hc, List.append_eq]
      rw [ih]
      cases h : (splitBuf cs).1 with
      | nil => simp [h, splitBuf, if_neg hc]
      | cons l tl => simp [h, splitBuf, if_neg hc]

/-- Processing a concatenation of line runs: if the first run hits the
`[DONE]` sentinel the rest is never looked at; otherwise the outputs are
concatenated and the second run decides the sentinel flag. -/
theorem processLines_append (extract : List Char → Option (List Char))
    (a b : List (List Char)) :
    processLines extract (a ++ b) =
      if (processLines extract a).2 then processLines extract a
      else ((processLines extract a).1 ++ (processLines extract b).1,
            (processLines extract b).2) := by
  induction a with
  | nil => simp [processLines]
  | cons l ls ih =>
    by_cases hd : startsWithData l
    · by_cases hdone : l.drop 6 = doneSentinel
      · simp [processLines, hd, hdone]
      · cases hex : extract (l.drop 6) with
        | none => simpa [processLines, hd, hdone, hex] using ih
        | some c =>
          by_cases hc : c = []
          · simpa [processLines, hd, hdone, hex, hc] using ih
          · by_cases hfin : (processLines extract ls).2 <;>
              simp [processLines, hd, hdone, hex, hc, ih, hfin]
    · simpa [processLines, hd] using ih

/-- Chunk-boundary invariance of one read step: feeding `c1 ++ c2` yields
the same fragments as feeding `c1` and then `c2`. -/
theorem feed_append (extract : List Char → Option (List Char))
    (st : DecState) (c1 c2 : List Char) :
    (feed extract st (c1 ++ c2)).2 =
      (feed extract st c1).2 ++ (feed extract (feed extract st c1).1 c2).2 := by
  by_cases hf : st.finished
  · simp [feed, hf]
  · have hbuf : st.buffer ++ (c1 ++ c2) = (st.buffer ++ c1) ++ c2 := by
      simp [List.append_assoc]
    simp only [feed, hf, Bool.false_eq_true, reduceIte]
    rw [hbuf, splitBuf_append (st.buffer ++ c1) c2]
    rw [processLines_append]
    by_cases hfin : (processLines extract (splitBuf (st.buffer ++ c1)).1).2
    · simp [hfin]
    · simp [hfin]

/-- Claim C6: stream decoding is invariant under chunk boundaries — a
character stream delivered as two chunks yields exactly the fragment
sequence of the same stream delivered as one chunk, for every split
point; a `data: [DONE]` record ends the stream (later records yield
nothing); and a record whose payload has no extractable content fragment
(malformed JSON or an absent delta) is skipped without aborting the
stream. -/
theorem C6_stream_decode_chunk_invariance :
    (∀ (extract : List Char → Option (List Char)) (s1 s2 : List Char),
       (feedAll extract decInit [s1, s2]).2 = (feedAll extract decInit [s1 ++ s2]).2) ∧
    (∀ (extract : List Char → Option (List Char)) (ls : List (List Char)),
       processLines extract ((dataMarker ++ doneSentinel) :: ls) = ([], true)) ∧
    (∀ (extract : List Char → Option (List Char)) (d : List Char) (ls : List (List Char)),
       extract d = Option.none → d ≠ doneSentinel →
       processLines extract ((dataMarker ++ d) :: ls) = processLines extract ls) := by
  refine ⟨?_, ?_, ?_⟩
  · intro extract s1 s2
    simp only [feedAll, List.append_nil]
    rw [feed_append]
  · intro extract ls
    simp [processLines, startsWithData, dataMarker]
  · intro extract d ls hex hne
    have hdrop : (dataMarker ++ d).drop 6 = d := rfl
    have hsw : startsWithData (dataMarker ++ d) = true := rfl
    simp [processLines, hsw, hdrop, hne, hex]

/-- Witness for C6: the record stream `data: p1\ndata: junk\ndata: p1\ndata: [DONE]\ndata: p1\n`
decodes — under an extractor that recognises only payload `p1` — to two
fragments whichever way it is split in the middle of the second record,
the `[DONE]` record ends the stream before the final record, and the
unrecognised `junk` record is skipped without ending the stream. -/
theorem C6_stream_decode_chunk_invariance_witness :
    (feedAll (fun d => if d = "p1".toList then Option.some "X".toList else Option.none)
        decInit ["data: p1\nda".toList, "ta: junk\ndata: p1\ndata: [DONE]\ndata: p1\n".toList]).2 =
      (feedAll (fun d => if d = "p1".toList then Option.some "X".toList else Option.none)
        decInit [("data: p1\nda" ++ "ta: junk\ndata: p1\ndata: [DONE]\ndata: p1\n").toList]).2 ∧
    processLines (fun d => if d = "p1".toList then Option.some "X".toList else Option.none)
        ((dataMarker ++ doneSentinel) :: ["data: p1".toList]) = ([], true) ∧
    processLines (fun d => if d = "p1".toList then Option.some "X".toList else Option.none)
        ((dataMarker ++ "junk".toList) :: ["data: p1".toList]) =
      processLines (fun d => if d = "p1".toList then Option.some "X".toList else Option.none)
        ["data: p1".toList] := by
  refine ⟨?_, ?_, ?_⟩
  · exact C6_stream_decode_chunk_invariance.1
      (fun d => if d = "p1".toList then Option.some "X".toList else Option.none)
      "data: p1\nda".toList "ta: junk\ndata: p1\ndata: [DONE]\ndata: p1\n".toList
  · exact C6_stream_decode_chunk_invariance.2.1
      (fun d => if d = "p1".toList then Option.some "X".toList else Option.none)
      ["data: p1".toList]
  · exact C6_stream_decode_chunk_invariance.2.2
      (fun d => if d = "p1".toList then Option.some "X".toList else Option.none)
      "junk".toList ["data: p1".toList] (by decide) (by decide)

/-- Resolving (or creating) a conversation touches only the conversations
table. -/
theorem resolveConversation_frame (db : Db) (userId : String)
    (body : ChatBody) (cid : String) :
    (resolveConversation db userId body cid).2.users = db.users ∧
    (resolveConversation db userId body cid).2.txns = db.txns ∧
    (resolveConversation db userId body cid).2.messages = db.messages := by
  cases hb : body.conversationId with
  | none => simp [resolveConversation, hb]
  | some c =>
    cases hf : db.conversations.find? (fun x => x.id == c && x.userId == userId) with
    | none => simp [resolveConversation, hb, hf]
    | some cc => simp [resolveConversation, hb, hf]

/-- Claim C2: a request whose caller's balance is below the computed cost
has no side effects — on Generate (when the provider call itself
succeeded) the insufficient-credits outcome with required and available
amounts is returned and the store is unchanged (no project, no
transaction); on Chat the insufficient-credits outcome is returned, the
store is unchanged (no conversation, no user message, no transaction),
and the response is the JSON error rather than a stream, independently of
the provider (the provider stream is never opened). -/
theorem C2_insufficient_credits_no_side_effects
    (admins : List String) (db : Db) (user : AppUser) (valid : Bool)
    (prompt : String) (result : GenerationResult) (pn pid slug : String)
    (body : ChatBody) (cid mid aid : String)
    (provider : List CtxMsg → List String × Bool) :
    (valid = true → result.success = true → user.isAdmin = false →
       user.credits < (result.estimatedCost : WithTop ℚ) →
       generatePOST admins db (Option.some user) valid prompt result pn pid slug =
         (GenResponse.insufficientCredits result.estimatedCost user.credits, db)) ∧
    (user.isAdmin = false → trimString body.message ≠ "" →
       user.credits < ((if body.attachments.length > 0 then chatWithDocumentCost
                        else chatSimpleCost : ℚ) : WithTop ℚ) →
       chatPOST admins db (Option.some user) body cid mid aid provider =
         (ChatResponse.insufficientCredits
            (if body.attachments.length > 0 then chatWithDocumentCost else chatSimpleCost)
            user.credits, db)) := by
  constructor
  · intro hv hs hna hlt
    simp [generatePOST, hv, hs, hna, hlt]
  · intro hna hmsg hlt
    simp [chatPOST, hmsg, hna, hlt]

/-- Witness for C2: a non-admin with 1 credit: a generate whose provider
result costs 10 returns the 402 outcome with the store unchanged, and a
chat message with an attachment (cost 0.50 > 0.25) returns the 402
outcome with the store unchanged. -/
theorem C2_insufficient_credits_no_side_effects_witness :
    generatePOST [] dbEmpty
        (Option.some ⟨"u1", "a@b.c", ((1 : ℚ) : WithTop ℚ), false⟩) true "a prompt"
        ⟨true, [⟨"f.txt", "x"⟩], Option.none, 10, Option.none⟩ "P" "p1" "s1" =
      (GenResponse.insufficientCredits 10 ((1 : ℚ) : WithTop ℚ), dbEmpty) ∧
    chatPOST [] dbEmpty
        (Option.some ⟨"u1", "a@b.c", ((1 / 4 : ℚ) : WithTop ℚ), false⟩)
        ⟨Option.none, "hello", [⟨"document", "doc.pdf", Option.none⟩]⟩ "c1" "m1" "m2"
        (fun _ => (["never"], false)) =
      (ChatResponse.insufficientCredits chatWithDocumentCost ((1 / 4 : ℚ) : WithTop ℚ),
       dbEmpty) := by
  constructor
  · exact (C2_insufficient_credits_no_side_effects [] dbEmpty
      ⟨"u1", "a@b.c", ((1 : ℚ) : WithTop ℚ), false⟩ true "a prompt"
      ⟨true, [⟨"f.txt", "x"⟩], Option.none, 10, Option.none⟩ "P" "p1" "s1"
      ⟨Option.none, "hello", []⟩ "c1" "m1" "m2" (fun _ => ([], false))).1
      rfl rfl rfl (by
        rw [WithTop.coe_lt_coe]
        norm_num)
  · have h := (C2_insufficient_credits_no_side_effects [] dbEmpty
      ⟨"u1", "a@b.c", ((1 / 4 : ℚ) : WithTop ℚ), false⟩ true "a prompt"
      ⟨true, [], Option.none, 0, Option.none⟩ "P" "p1" "s1"
      ⟨Option.none, "hello", [⟨"document", "doc.pdf", Option.none⟩]⟩ "c1" "m1" "m2"
      (fun _ => (["never"], false))).2
      rfl (by decide) (by
        rw [if_pos (by decide), WithTop.coe_lt_coe]
        norm_num [chatWithDocumentCost])
    simpa using h

/-- The success path of `deductCredits` on a found, non-admin, sufficiently
funded account. -/
theorem deduct_success_general (admins : List String) (db : Db)
    (userId descr : String) (amount : ℚ) (u : User)
    (hfind : findUser db userId = Option.some u)
    (hadm : isAdminUser admins u = false)
    (hle : amount ≤ u.credits) :
    deductCredits DbFail.none admins db userId amount descr =
      (⟨true, (u.credits - amount : ℚ)⟩,
       appendTxn (updateCredits db userId (fun c => c - amount))
         ⟨userId, -amount, TxnType.USAGE, Option.none, descr⟩) := by
  simp [deductCredits, hfind, hadm, not_lt.mpr hle]

/-- Claim C9: a chat request whose provider stream raises after `frags`
fragments were produced emits the relayed fragments followed by the
in-band error marker and closes the channel (the event list ends at the
marker, with no `[DONE]`), and the debit applied before streaming is not
reversed: the account's post-request balance is its pre-request balance
minus the computed chat cost, and the usage transaction for that cost
remains the only ledger append. -/
theorem C9_stream_error_debit_kept (admins : List String) (db : Db)
    (u : User) (body : ChatBody) (cid mid aid : String) (frags : List String)
    (hfind : findUser db u.id = Option.some u)
    (hadm : isAdminUser admins u = false)
    (hmsg : trimString body.message ≠ "")
    (hsuff : (if body.attachments.length > 0 then chatWithDocumentCost
              else chatSimpleCost) ≤ u.credits) :
    (chatPOST admins db (Option.some (toAppUser admins u)) body cid mid aid
        (fun _ => (frags, true))).1 =
      ChatResponse.stream (resolveConversation db u.id body cid).1.id
        (frags.map SSEvent.content ++ [SSEvent.errorMarker]) ∧
    findUser (chatPOST admins db (Option.some (toAppUser admins u)) body cid mid aid
        (fun _ => (frags, true))).2 u.id =
      Option.some { u with credits := u.credits -
        (if body.attachments.length > 0 then chatWithDocumentCost else chatSimpleCost) } ∧
    (chatPOST admins db (Option.some (toAppUser admins u)) body cid mid aid
        (fun _ => (frags, true))).2.txns =
      db.txns ++
        [⟨u.id, -(if body.attachments.length > 0 then chatWithDocumentCost
                  else chatSimpleCost), TxnType.USAGE, Option.none,
          "Chat message in conversation " ++ (resolveConversation db u.id body cid).1.id⟩] := by
  have happ : toAppUser admins u = ⟨u.id, u.email, ((u.credits : ℚ) : WithTop ℚ), false⟩ := by
    simp [toAppUser, hadm]
  have hnlt : ¬(((u.credits : ℚ) : WithTop ℚ) <
      ((if body.attachments.length > 0 then chatWithDocumentCost
        else chatSimpleCost : ℚ) : WithTop ℚ)) := by
    rw [WithTop.coe_lt_coe]
    exact not_lt.mpr hsuff
  rcases hrc : resolveConversation db u.id body cid with ⟨conv, db1⟩
  have hfrc := resolveConversation_frame db u.id body cid
  rw [hrc] at hfrc
  have hU : db1.users = db.users := hfrc.1
  have hT : db1.txns = db.txns := hfrc.2.1
  have hfind2 : findUser { db1 with messages := db1.messages ++
      [⟨mid, conv.id, MsgRole.USER, body.message, body.attachments⟩] } u.id =
      Option.some u := by
    show db1.users.find? (fun x => x.id == u.id) = Option.some u
    rw [hU]
    exact hfind
  have hded := deduct_success_general admins
    { db1 with messages := db1.messages ++
      [⟨mid, conv.id, MsgRole.USER, body.message, body.attachments⟩] }
    u.id ("Chat message in conversation " ++ conv.id)
    (if body.attachments.length > 0 then chatWithDocumentCost else chatSimpleCost)
    u hfind2 hadm hsuff
  have hmain : chatPOST admins db (Option.some (toAppUser admins u)) body cid mid aid
      (fun _ => (frags, true)) =
      (ChatResponse.stream conv.id (frags.map SSEvent.content ++ [SSEvent.errorMarker]),
       appendTxn (updateCredits { db1 with messages := db1.messages ++
           [⟨mid, conv.id, MsgRole.USER, body.message, body.attachments⟩] } u.id
           (fun c => c - (if body.attachments.length > 0 then chatWithDocumentCost
                          else chatSimpleCost)))
         ⟨u.id, -(if body.attachments.length > 0 then chatWithDocumentCost
                  else chatSimpleCost), TxnType.USAGE, Option.none,
          "Chat message in conversation " ++ conv.id⟩) := by
    rw [show chatPOST admins db (Option.some (toAppUser admins u)) body cid mid aid
        (fun _ => (frags, true)) =
        chatPOST admins db (Option.some ⟨u.id, u.email, ((u.credits : ℚ) : WithTop ℚ), false⟩)
          body cid mid aid (fun _ => (frags, true)) from by rw [happ]]
    simp only [chatPOST, if_neg hmsg, hrc, hded]
    simp [hnlt]
  refine ⟨by rw [hmain], ?_, ?_⟩
  · rw [hmain]
    rw [show ∀ (x : Db) (t : Txn), findUser (appendTxn x t) u.id = findUser x u.id
        from fun x t => rfl]
    rw [findUser_updateCredits, hfind2]
    rfl
  · rw [hmain]
    simp [appendTxn, updateCredits, hT]

/-- Witness for C9: user `u1` with balance 10 sends "hi" (no attachments,
cost 0.30) to a fresh conversation; the provider produces two fragments
then raises: the response relays the two fragments then the error marker
and ends, and `u1`'s balance is 10 − 0.30 with the usage transaction
kept. -/
theorem C9_stream_error_debit_kept_witness :
    (chatPOST [] ⟨[⟨"u1", "a@b.c", Role.USER, 10⟩], [], [], [], []⟩
        (Option.some (toAppUser [] ⟨"u1", "a@b.c", Role.USER, 10⟩))
        ⟨Option.none, "hi", []⟩ "c1" "m1" "m2" (fun _ => (["He", "llo"], true))).1 =
      ChatResponse.stream "c1"
        [SSEvent.content "He", SSEvent.content "llo", SSEvent.errorMarker] ∧
    findUser (chatPOST [] ⟨[⟨"u1", "a@b.c", Role.USER, 10⟩], [], [], [], []⟩
        (Option.some (toAppUser [] ⟨"u1", "a@b.c", Role.USER, 10⟩))
        ⟨Option.none, "hi", []⟩ "c1" "m1" "m2" (fun _ => (["He", "llo"], true))).2 "u1" =
      Option.some ⟨"u1", "a@b.c", Role.USER, 10 - chatSimpleCost⟩ := by
  have h := C9_stream_error_debit_kept [] ⟨[⟨"u1", "a@b.c", Role.USER, 10⟩], [], [], [], []⟩
    ⟨"u1", "a@b.c", Role.USER, 10⟩ ⟨Option.none, "hi", []⟩ "c1" "m1" "m2" ["He", "llo"]
    (by decide) (by decide) (by decide)
    (by rw [if_neg (by decide)]; norm_num [chatSimpleCost])
  exact ⟨h.1, h.2.1⟩

/-- Claim C8 is violated by the code: the context query orders the
conversation's messages by `createdAt` ascending and takes 10, which
selects the ten OLDEST messages, not the ten most recent.  On a
conversation holding ten earlier messages plus the just-persisted newest
user message, the context sent to the provider is the system instruction
followed by the ten oldest messages, and the newest user message — the
one the request is answering — is absent from it. -/
theorem C8_context_takes_oldest_messages :
    buildContext
      ⟨[], [], [⟨"c1", "u1", "t", 0⟩],
       [⟨"m01", "c1", MsgRole.USER, "one", []⟩,
        ⟨"m02", "c1", MsgRole.ASSISTANT, "two", []⟩,
        ⟨"m03", "c1", MsgRole.USER, "three", []⟩,
        ⟨"m04", "c1", MsgRole.ASSISTANT, "four", []⟩,
        ⟨"m05", "c1", MsgRole.USER, "five", []⟩,
        ⟨"m06", "c1", MsgRole.ASSISTANT, "six", []⟩,
        ⟨"m07", "c1", MsgRole.USER, "seven", []⟩,
        ⟨"m08", "c1", MsgRole.ASSISTANT, "eight", []⟩,
        ⟨"m09", "c1", MsgRole.USER, "nine", []⟩,
        ⟨"m10", "c1", MsgRole.ASSISTANT, "ten", []⟩,
        ⟨"m11", "c1", MsgRole.USER, "newest user message", []⟩], []⟩ "c1" =
      CtxMsg.mk MsgRole.SYSTEM systemPromptText ::
        [⟨MsgRole.USER, "one"⟩, ⟨MsgRole.ASSISTANT, "two"⟩,
         ⟨MsgRole.USER, "three"⟩, ⟨MsgRole.ASSISTANT, "four"⟩,
         ⟨MsgRole.USER, "five"⟩, ⟨MsgRole.ASSISTANT, "six"⟩,
         ⟨MsgRole.USER, "seven"⟩, ⟨MsgRole.ASSISTANT, "eight"⟩,
         ⟨MsgRole.USER, "nine"⟩, ⟨MsgRole.ASSISTANT, "ten"⟩] ∧
    ¬ ∃ m ∈ buildContext
      ⟨[], [], [⟨"c1", "u1", "t", 0⟩],
       [⟨"m01", "c1", MsgRole.USER, "one", []⟩,
        ⟨"m02", "c1", MsgRole.ASSISTANT, "two", []⟩,
        ⟨"m03", "c1", MsgRole.USER, "three", []⟩,
        ⟨"m04", "c1", MsgRole.ASSISTANT, "four", []⟩,
        ⟨"m05", "c1", MsgRole.USER, "five", []⟩,
        ⟨"m06", "c1", MsgRole.ASSISTANT, "six", []⟩,
        ⟨"m07", "c1", MsgRole.USER, "seven", []⟩,
        ⟨"m08", "c1", MsgRole.ASSISTANT, "eight", []⟩,
        ⟨"m09", "c1", MsgRole.USER, "nine", []⟩,
        ⟨"m10", "c1", MsgRole.ASSISTANT, "ten", []⟩,
        ⟨"m11", "c1", MsgRole.USER, "newest user message", []⟩], []⟩ "c1",
      m.content = "newest user message" := by
  constructor
  · rfl
  · decide

/-- Appending a transaction adds its amount to its owner's sum and leaves
every other account's sum unchanged. -/
theorem txnSum_appendTxn (db : Db) (t : Txn) (uid : String) :
    txnSum (appendTxn db t) uid =
      txnSum db uid + (if t.userId == uid then t.amount else 0) := by
  by_cases h : t.userId == uid <;>
    simp [txnSum, appendTxn, List.filter_append, h]

/-- Updating credits leaves transaction sums unchanged. -/
theorem txnSum_updateCredits (db : Db) (uid : String) (f : ℚ → ℚ) (v : String) :
    txnSum (updateCredits db uid f) v = txnSum db v := rfl

/-- Updating credits does not change the list of user ids. -/
theorem map_id_updateCredits (l : List User) (uid : String) (f : ℚ → ℚ) :
    (l.map (fun u => if u.id == uid then { u with credits := f u.credits } else u)).map
        User.id = l.map User.id := by
  induction l with
  | nil => rfl
  | cons a tl ih =>
    simp only [List.map_cons, ih]
    congr 1
    by_cases h : a.id == uid <;> simp [h]

/-- With unique ids, `find?` on an id returns the member carrying it. -/
theorem find?_users_eq (l : List User) (uid : String) (u : User)
    (hn : (l.map User.id).Nodup) (hm : u ∈ l) (hid : u.id = uid) :
    l.find? (fun x => x.id == uid) = Option.some u := by
  induction l with
  | nil => cases hm
  | cons a tl ih =>
    rcases List.mem_cons.mp hm with rfl | hm2
    · simp [List.find?, hid]
    · have hne : (a.id == uid) = false := by
        rcases List.nodup_cons.mp hn with ⟨hna, _⟩
        by_contra hcon
        rw [Bool.not_eq_false, beq_iff_eq] at hcon
        exact hna (hcon ▸ (hid ▸ List.mem_map_of_mem User.id hm2))
      rw [List.find?]
      rw [hne]
      exact ih (List.nodup_cons.mp hn).2 hm2

/-- The ledger invariant survives an atomic balance change of `+A` on the
unique row with id `uid` together with one appended transaction of
amount `A` owned by `uid`. -/
theorem ledgerInv_mutate (db : Db) (uid : String) (u : User) (A : ℚ)
    (f : ℚ → ℚ) (t : Txn)
    (hfind : findUser db uid = Option.some u)
    (hInv : LedgerInv db)
    (hf : f u.credits = u.credits + A)
    (htu : t.userId = uid) (hta : t.amount = A) :
    LedgerInv (appendTxn (updateCredits db uid f) t) := by
  obtain ⟨hN, hOwn, hSum⟩ := hInv
  have hu_mem : u ∈ db.users := List.mem_of_find?_eq_some hfind
  have hu_id : u.id = uid := by
    have := List.find?_some hfind
    exact beq_iff_eq.mp this
  refine ⟨?_, ?_, ?_⟩
  · show ((db.users.map _).map User.id).Nodup
    rw [map_id_updateCredits]
    exact hN
  · intro s hs
    rcases List.mem_append.mp hs with hs1 | hs2
    · obtain ⟨v, hv, hvid⟩ := hOwn s hs1
      refine ⟨if v.id == uid then { v with credits := f v.credits } else v, ?_, ?_⟩
      · exact List.mem_map_of_mem _ hv
      · by_cases h : v.id == uid <;> simp [h, hvid]
    · have hst : s = t := by simpa using hs2
      subst hst
      refine ⟨{ u with credits := f u.credits }, ?_, ?_⟩
      · have : (fun x => if x.id == uid then { x with credits := f x.credits } else x) u =
            { u with credits := f u.credits } := by
          simp [hu_id]
        exact this ▸ List.mem_map_of_mem _ hu_mem
      · simpa using htu.trans hu_id.symm
  · intro v hv
    obtain ⟨w, hw, hwv⟩ := List.mem_map.mp hv
    by_cases h : w.id == uid
    · have hwid : w.id = uid := beq_iff_eq.mp h
      have hweq : w = u := by
        have h1 : findUser db uid = Option.some w :=
          find?_users_eq db.users uid w hN hw hwid
        exact Option.some.inj (h1.symm.trans hfind)
      subst hweq
      have hv_eq : v = { w with credits := f w.credits } := by
        rw [← hwv]
        simp [h]
      subst hv_eq
      have hbeq : (t.userId == ({ w with credits := f w.credits } : User).id) = true := by
        simp [htu, hwid]
      have hsum_u := hSum w hw
      rw [txnSum_appendTxn, txnSum_updateCredits, hbeq]
      have hproj_id : ({ w with credits := f w.credits } : User).id = w.id := rfl
      have hproj_cr : ({ w with credits := f w.credits } : User).credits = f w.credits := rfl
      rw [if_pos rfl, hproj_id, hproj_cr, hta, hf, hsum_u]
      ring
    · have hv_eq : v = w := by
        rw [← hwv]
        simp [h]
      subst hv_eq
      have hne : v.id ≠ uid := by
        intro e
        exact h (beq_iff_eq.mpr e)
      have hbeq : (t.userId == v.id) = false := by
        rw [htu, beq_eq_false_iff_ne]
        exact fun e => hne e.symm
      rw [txnSum_appendTxn, txnSum_updateCredits, hbeq]
      rw [if_neg (by simp), add_zero]
      exact hSum v hw

/-- The ledger invariant survives account creation with a fresh id (the
new account starts at 100 credits with no transaction). -/
theorem ledgerInv_create (admins : List String) (db : Db) (id email : String)
    (hInv : LedgerInv db) (hfresh : ∀ u ∈ db.users, u.id ≠ id) :
    LedgerInv (createUser admins db id email) := by
  obtain ⟨hN, hOwn, hSum⟩ := hInv
  refine ⟨?_, ?_, ?_⟩
  · show ((db.users ++ [_]).map User.id).Nodup
    rw [List.map_append, List.nodup_append]
    refine ⟨hN, List.nodup_singleton _, ?_⟩
    intro a ha hb
    simp only [List.map_cons, List.map_nil, List.mem_singleton] at hb
    obtain ⟨u, hu, hui⟩ := List.mem_map.mp ha
    exact hfresh u hu (hui.trans hb)
  · intro t ht
    obtain ⟨u, hu, hui⟩ := hOwn t ht
    exact ⟨u, List.mem_append_left _ hu, hui⟩
  · intro u hu
    rcases List.mem_append.mp hu with hold | hnew
    · exact hSum u hold
    · rw [List.mem_singleton] at hnew
      subst hnew
      have hnil : db.txns.filter (fun t => t.userId == id) = [] := by
        rw [List.filter_eq_nil_iff]
        intro t ht
        obtain ⟨u', hu', hui⟩ := hOwn t ht
        rw [beq_iff_eq, hui]
        exact hfresh u' hu'
      show txnSum (createUser admins db id email) id = (100 : ℚ) - 100
      rw [show txnSum (createUser admins db id email) id = txnSum db id from rfl]
      rw [txnSum, hnil]
      norm_num

/-- One operation preserves the ledger invariant under its side
condition. -/
theorem ledgerInv_applyOp (admins : List String) (db : Db) (op : LedgerOp)
    (hInv : LedgerInv db) (hok : okStep admins db op) :
    LedgerInv (applyOp admins db op) := by
  cases op with
  | create id email => exact ledgerInv_create admins db id email hInv hok
  | deduct uid A d =>
    show LedgerInv (deductCredits DbFail.none admins db uid A d).2
    cases hf : findUser db uid with
    | none => simpa [deductCredits, hf] using hInv
    | some u =>
      by_cases ha : isAdminUser admins u
      · simpa [deductCredits, hf, ha] using hInv
      · by_cases hc : u.credits < A
        · simpa [deductCredits, hf, ha, hc] using hInv
        · have hd := deduct_success_general admins db uid d A u hf
            (by simpa using ha) (not_lt.mp hc)
          rw [hd]
          exact ledgerInv_mutate db uid u (-A) (fun c => c - A)
            ⟨uid, -A, TxnType.USAGE, Option.none, d⟩ hf
            ⟨hInv.1, hInv.2.1, hInv.2.2⟩ (by ring) rfl rfl
  | credit uid A d ty =>
    show LedgerInv (addCredits DbFail.none db uid A d ty).2
    cases hf : findUser db uid with
    | none => simpa [addCredits, hf] using hInv
    | some u =>
      have heq : addCredits DbFail.none db uid A d ty =
          (⟨true, u.credits + A⟩,
           appendTxn (updateCredits db uid (fun c => c + A))
             ⟨uid, A, ty, Option.none, d⟩) := by
        simp [addCredits, hf]
      rw [heq]
      exact ledgerInv_mutate db uid u A (fun c => c + A)
        ⟨uid, A, ty, Option.none, d⟩ hf ⟨hInv.1, hInv.2.1, hInv.2.2⟩ rfl rfl rfl
  | adjust uid A r =>
    show LedgerInv (adminAdjust admins db uid A r).2
    cases hf : findUser db uid with
    | none => simpa [adminAdjust, hf] using hInv
    | some target =>
      by_cases ha : isAdminUser admins target
      · simpa [adminAdjust, hf, ha] using hInv
      · have hf2 : db.users.find? (fun x => x.id == uid) = Option.some target := hf
        have hmem : target ∈ db.users := List.mem_of_find?_eq_some hf2
        have hid0 := List.find?_some hf2
        have hid : target.id = uid := beq_iff_eq.mp hid0
        have hpos : 0 ≤ target.credits + A := hok target hmem hid (by simpa using ha)
        have hmax : max 0 (target.credits + A) = target.credits + A := max_eq_right hpos
        have heq : adminAdjust admins db uid A r =
            (AdjustOutcome.ok target.credits (target.credits + A),
             appendTxn (updateCredits db uid (fun _ => target.credits + A))
               ⟨uid, A, TxnType.ADJUSTMENT, Option.some (target.credits + A),
                "[ADMIN] " ++ r⟩) := by
          simp [adminAdjust, hf, ha, hmax]
        rw [heq]
        exact ledgerInv_mutate db uid target A (fun _ => target.credits + A)
          ⟨uid, A, TxnType.ADJUSTMENT, Option.some (target.credits + A), "[ADMIN] " ++ r⟩
          hf ⟨hInv.1, hInv.2.1, hInv.2.2⟩ rfl rfl rfl

/-- A run of operations with its side conditions preserves the invariant. -/
theorem ledgerInv_applyOps (admins : List String) :
    ∀ (ops : List LedgerOp) (db : Db), LedgerInv db → okRun admins db ops →
      LedgerInv (applyOps admins db ops) := by
  intro ops
  induction ops with
  | nil => intro db h _; exact h
  | cons op ops ih =>
    intro db h hok
    exact ih (applyOp admins db op) (ledgerInv_applyOp admins db op h hok.1) hok.2

/-- The empty store satisfies the invariant. -/
theorem ledgerInv_empty : LedgerInv dbEmpty :=
  ⟨by simp [dbEmpty], by simp [dbEmpty], by simp [dbEmpty]⟩

/-- Claim C7 (amended): after any sequence of account creations (with
store-generated fresh ids), deductCredits, addCredits, and admin
adjustments in which no adjustment hits the `max(0, ...)` floor, every
account's transaction-amount sum equals its balance MINUS the 100
starting credits granted without a transaction at creation (in
particular this holds for every non-admin account). -/
theorem C7_running_sum_invariant (admins : List String) (ops : List LedgerOp)
    (hok : okRun admins dbEmpty ops) :
    ∀ u ∈ (applyOps admins dbEmpty ops).users,
      txnSum (applyOps admins dbEmpty ops) u.id = u.credits - 100 :=
  (ledgerInv_applyOps admins ops dbEmpty ledgerInv_empty hok).2.2

/-- Counterexample for C7 as stated: account creation grants 100 starting
credits without writing any transaction, so immediately after creation a
non-admin account has balance 100 and transaction sum 0. -/
theorem C7_counterexample :
    ∃ u ∈ (applyOps [] dbEmpty [LedgerOp.create "u1" "a@b.c"]).users,
      isAdminUser [] u = false ∧
      txnSum (applyOps [] dbEmpty [LedgerOp.create "u1" "a@b.c"]) u.id ≠ u.credits := by
  decide

/-- Witness for C7: the run create, deduct 30, credit 50 on a fresh
account satisfies the side conditions, so its transaction sum equals its
balance minus the 100 starting credits. -/
theorem C7_running_sum_invariant_witness :
    okRun [] dbEmpty
      [LedgerOp.create "u1" "a@b.c",
       LedgerOp.deduct "u1" 30 "use",
       LedgerOp.credit "u1" 50 "buy" TxnType.PURCHASE] ∧
    ∀ u ∈ (applyOps [] dbEmpty
      [LedgerOp.create "u1" "a@b.c",
       LedgerOp.deduct "u1" 30 "use",
       LedgerOp.credit "u1" 50 "buy" TxnType.PURCHASE]).users,
      txnSum (applyOps [] dbEmpty
        [LedgerOp.create "u1" "a@b.c",
         LedgerOp.deduct "u1" 30 "use",
         LedgerOp.credit "u1" 50 "buy" TxnType.PURCHASE]) u.id = u.credits - 100 := by
  have hok : okRun [] dbEmpty
      [LedgerOp.create "u1" "a@b.c",
       LedgerOp.deduct "u1" 30 "use",
       LedgerOp.credit "u1" 50 "buy" TxnType.PURCHASE] := by
    refine ⟨?_, trivial, trivial, trivial⟩
    show ∀ u ∈ dbEmpty.users, u.id ≠ "u1"
    simp [dbEmpty]
  exact ⟨hok, C7_running_sum_invariant []
    [LedgerOp.create "u1" "a@b.c",
     LedgerOp.deduct "u1" 30 "use",
     LedgerOp.credit "u1" 50 "buy" TxnType.PURCHASE] hok⟩

end Cakto
